import Mathlib

set_option maxHeartbeats 1000000

/-!
Shallow embedding of the Teachify content-to-game generation pipeline
(`src/services/gemini.ts`) together with the caller-side cancellation
wrapper of `src/components/CreateGame.tsx`.

Modelling conventions:
* JS strings are Lean `String`s; character-level reasoning happens on
  `String.data : List Char` (one `Char` per code unit).
* `JSON.parse` composed with the implicit field projection of the
  spread-and-cast in `parseGameResponse` is an abstract parameter
  `parse : String → Option ParsedGame`; a `ParsedGame` also records any
  `code` / `isEngine` fields the model may have emitted, so that the
  embedding can show they are discarded.
* The ambient randomness of `Math.random().toString(36)` is modelled by
  the list of fractional base-36 digits that `toString(36)` prints
  (trailing zeros omitted, so the list may have fewer than 4 entries).
* The external model call for attempt `i` (already raced against its
  timeout by `withTimeout`) is an environment `env : Nat → CallResult`.
* Temperatures are recorded in tenths (`4` for `0.4`) since they do not
  influence any modelled behaviour.
-/

/-- Game mode of `GenerateOptions` (legacy or engine). -/
inductive GameMode
  | legacy
  | engine
  deriving DecidableEq, Repr

/-- The `GenerateOptions` record of `src/services/gemini.ts`. -/
structure GenerateOptions where
  content : String
  objective : String
  objectiveType : String
  gameMode : GameMode
  preferredGenre : Option String
  preferredMechanics : Option (List String)
  avoidMechanics : Option (List String)
  deriving DecidableEq, Repr

/-- The `Question` record of `src/types.ts`.  `correctIndex` is a JS
number coming from parsed JSON, so it is an `Int` (it may be negative
or out of range: the pipeline never checks it). -/
structure Question where
  id : String
  text : String
  options : List String
  correctIndex : Int
  explanation : String
  concept : String
  misconception : Option String
  deriving DecidableEq, Repr

/-- The `GameData` record of `src/types.ts`.  `theme` is a `String`
because `parseGameResponse` casts the parsed JSON without validating
the theme enum. -/
structure GameData where
  code : String
  isEngine : Bool
  title : String
  description : String
  questions : List Question
  theme : String
  deriving DecidableEq, Repr

/-- The value produced by `JSON.parse` on a successful parse, projected
onto the fields the pipeline reads.  `codeJson` and `isEngineJson`
record a `code` / `isEngine` property that the JSON from the model may
itself have carried; the spread `{...parsed, code: ..., isEngine: ...}` overwrites
both. -/
structure ParsedGame where
  title : String
  description : String
  theme : String
  questions : List Question
  codeJson : Option String
  isEngineJson : Option Bool
  deriving DecidableEq, Repr

/-! ### Content preprocessing (`preprocessContent`, lines 44-55) -/

/-- First join marker inserted by `preprocessContent`. -/
def contMarker : List Char := "\n\n[... content continues ...]\n\n".data

/-- Second join marker inserted by `preprocessContent`. -/
def moreMarker : List Char := "\n\n[... more content ...]\n\n".data

/-- JS `s.slice(-c)`: the last `c` characters — except that `-0 === 0`,
so `c = 0` yields the whole string, not the empty one. -/
def jsSliceNeg (s : List Char) (c : Nat) : List Char :=
  if c = 0 then s else s.drop (s.length - c)

/-- Body of `preprocessContent` on the character list of the content. -/
def preprocessList (content : List Char) (maxLength : Nat) : List Char :=
  if content.length ≤ maxLength then content
  else
    let chunkSize := maxLength / 3
    let beginning := content.take chunkSize
    let middleStart := content.length / 2 - chunkSize / 2
    let middle := (content.drop middleStart).take chunkSize
    let ending := jsSliceNeg content chunkSize
    beginning ++ contMarker ++ middle ++ moreMarker ++ ending

/-- Model of `preprocessContent` of `src/services/gemini.ts`. -/
def preprocessContent (content : String) (maxLength : Nat) : String :=
  ⟨preprocessList content.data maxLength⟩

/-! ### Response cleaning (`parseGameResponse`, lines 26-41) -/

/-- Fuel-indexed worker for a JS global replace-with-empty: a
left-to-right scan deleting each non-overlapping occurrence of the
pattern. -/
def removeAllAux (pat : List Char) : Nat → List Char → List Char
  | _, [] => []
  | 0, s => s
  | fuel + 1, c :: rest =>
    if pat.isPrefixOf (c :: rest) ∧ pat ≠ [] then
      removeAllAux pat fuel (rest.drop (pat.length - 1))
    else
      c :: removeAllAux pat fuel rest

/-- JS global regex deletion of a literal pattern from a string. -/
def removeAll (pat s : List Char) : List Char :=
  removeAllAux pat s.length s

/-- JS `String.prototype.trim`: strip whitespace from both ends. -/
def jsTrim (s : List Char) : List Char :=
  ((s.dropWhile Char.isWhitespace).reverse.dropWhile Char.isWhitespace).reverse

/-- The cleaning pass of `parseGameResponse`: globally delete the
fence markers (first the json-tagged one, then the bare one), then
trim surrounding whitespace. -/
def cleanResponse (responseText : String) : String :=
  ⟨jsTrim (removeAll "```".data (removeAll "```json".data responseText.data))⟩

/-! ### Code minting (`Math.random().toString(36).substring(2, 6).toUpperCase()`) -/

/-- The character `toString(36)` prints for one base-36 digit
(`0`-`9` then `a`-`z`). -/
def base36Char (d : Fin 36) : Char :=
  if d.val < 10 then Char.ofNat (48 + d.val) else Char.ofNat (97 + (d.val - 10))

/-- The freshly minted game code: characters 2-5 of
`"0." ++ digits` — i.e. the first four printed fractional digits —
upper-cased. -/
def mintCode (rng : List (Fin 36)) : String :=
  ⟨(rng.take 4).map (fun d => (base36Char d).toUpper)⟩

/-- Error message thrown by `parseGameResponse` when `JSON.parse` fails. -/
def invalidFormatMsg : String :=
  "The AI generated an invalid game format. Please try again."

/-- Model of `parseGameResponse` of `src/services/gemini.ts`: clean the text,
parse it, and enrich with a locally minted `code` and the
mode-derived `isEngine` flag; a parse failure throws
`invalidFormatMsg`. -/
def parseGameResponse (parse : String → Option ParsedGame) (rng : List (Fin 36))
    (responseText : String) (options : GenerateOptions) : Except String GameData :=
  match parse (cleanResponse responseText) with
  | none => .error invalidFormatMsg
  | some parsed =>
    .ok { code := mintCode rng
          isEngine := options.gameMode = GameMode.engine
          title := parsed.title
          description := parsed.description
          questions := parsed.questions
          theme := parsed.theme }

/-! ### Prompt building (template literal, lines 116-145) -/

/-- String interpolation of the game mode (`${options.gameMode}`). -/
def gameModeStr : GameMode → String
  | GameMode.legacy => "legacy"
  | GameMode.engine => "engine"

/-- Ternary theme interpolation of the prompt: for engine mode, the
preferred genre with "Adventure" as fallback (JS falsiness: an empty
string is also replaced); otherwise "Quiz". -/
def themeStr (options : GenerateOptions) : String :=
  if options.gameMode = GameMode.engine then
    match options.preferredGenre with
    | some g => if g = "" then "Adventure" else g
    | none => "Adventure"
  else "Quiz"

/-- The literal `OUTPUT SCHEMA` block of the prompt. -/
def promptSchema : String :=
  "\x7b\n            \"title\": \"string\",\n            \"description\": \"string\",\n            \"theme\": \"string\",\n            \"questions\": [\n            \x7b\n                \"id\": \"1\",\n                \"text\": \"Question?\",\n                \"options\": [\"A\", \"B\", \"C\", \"D\"],\n                \"correctIndex\": 0,\n                \"explanation\": \"Why?\",\n                \"concept\": \"Topic\",\n                \"misconception\": \"Wrong thought\"\n            \x7d\n            ]\n        \x7d"

/-- Requirement 1 of the prompt: the exact-question-count demand. -/
def fiveQuestionsReq : String := "1. Create EXACTLY 5 questions."

/-- The prompt template literal of `generateGameFromContent`
(static chunks interleaved with the interpolated values). -/
def buildPrompt (options : GenerateOptions) (processedContent : String) : String :=
  "\n        You are an expert game designer.\n        TASK: Create a " ++
  gameModeStr options.gameMode ++
  " game JSON for Learning Objective: \"" ++ options.objective ++ "\" (" ++
  options.objectiveType ++
  ").\n        \n        CONTENT TO BASE QUESTIONS ON:\n        " ++
  processedContent ++
  "\n        \n        REQUIREMENTS:\n        " ++
  fiveQuestionsReq ++
  "\n        2. Output JSON only.\n        3. Theme: " ++
  themeStr options ++
  ".\n        \n        OUTPUT SCHEMA:\n        " ++
  promptSchema ++
  "\n      "

/-! ### Strategies (`TIMEOUT_CONFIG` and the `strategies` array) -/

/-- One step of the retry ladder.  `temperatureTenths` records the
sampling temperature in tenths. -/
structure Strategy where
  label : String
  charLimit : Nat
  timeout : Nat
  temperatureTenths : Nat
  deriving DecidableEq, Repr

/-- The fixed strategy list of `generateGameFromContent`, built from
`TIMEOUT_CONFIG`. -/
def strategies : List Strategy :=
  [⟨"Full Analysis", 12000, 90000, 4⟩,
   ⟨"Condensed Summary", 6000, 75000, 5⟩,
   ⟨"Key Concepts", 3000, 60000, 6⟩]

/-! ### Retry orchestrator (`generateGameFromContent`, lines 78-206) -/

/-- Observable events of one orchestrator run: a progress-callback
invocation, the bounded model call of attempt `idx` with its prompt,
and a backoff delay. -/
inductive Event
  | progress (msg : String)
  | apiCall (idx : Nat) (prompt : String)
  | waitDelay (ms : Nat)
  deriving DecidableEq, Repr

/-- Outcome of one `withTimeout`-raced model call: a rejection (local
timeout or provider error) carrying its message, or a resolved
response whose `text` field may be missing. -/
inductive CallResult
  | failure (msg : String)
  | success (text : Option String)
  deriving DecidableEq, Repr

/-- Result of one attempt body (the `try` block). -/
inductive AttemptOut
  | ok (g : GameData)
  | fail (msg : String)
  deriving DecidableEq, Repr

/-- Error thrown when the response resolves without a text payload
(`!response.text`, which in JS is also true of the empty string). -/
def emptyResponseMsg : String := "Empty response from AI"

/-- The single consolidated error raised after all strategies fail
(line 205); note it is a constant, independent of the attempts. -/
def exhaustedMsg : String :=
  "We couldn\u0027t generate a game from this content after multiple attempts. Please try using a shorter document or pasting a summary."

/-- The backoff before retrying after a failed attempt `i`
(`1500 * (i + 1)`, line 199). -/
def backoffMs (i : Nat) : Nat := 1500 * (i + 1)

/-- The body of one attempt after the model call settled: empty-text
check, the second progress notification, and validation. -/
def runAttempt (parse : String → Option ParsedGame) (rng : List (Fin 36))
    (options : GenerateOptions) (call : CallResult) : List Event × AttemptOut :=
  match call with
  | CallResult.failure msg => ([], .fail msg)
  | CallResult.success none => ([], .fail emptyResponseMsg)
  | CallResult.success (some txt) =>
    if txt = "" then ([], .fail emptyResponseMsg)
    else
      match parseGameResponse parse rng txt options with
      | .ok g => ([.progress "Finalizing game..."], .ok g)
      | .error e => ([.progress "Finalizing game..."], .fail e)

/-- The stage string the orchestrator reports before attempt `i`. -/
def progressMsgFor (i : Nat) (s : Strategy) : String :=
  if i = 0 then "Analyzing content..."
  else "Retrying with " ++ s.label.toLower ++ "..."

/-- The retry loop from strategy index `i` with the remaining
strategies: events of the run paired with the settled outcome. -/
def runFrom (env : Nat → CallResult) (parse : String → Option ParsedGame)
    (rng : List (Fin 36)) (options : GenerateOptions) :
    Nat → List Strategy → List Event × Except String GameData
  | _, [] => ([], .error exhaustedMsg)
  | i, s :: rest =>
    let prompt := buildPrompt options (preprocessContent options.content s.charLimit)
    let attempt := runAttempt parse rng options (env i)
    let head : List Event := .progress (progressMsgFor i s) :: .apiCall i prompt :: attempt.1
    match attempt.2 with
    | AttemptOut.ok g => (head, .ok g)
    | AttemptOut.fail _ =>
      match rest with
      | [] => (head, .error exhaustedMsg)
      | s' :: rest' =>
        let next := runFrom env parse rng options (i + 1) (s' :: rest')
        (head ++ .waitDelay (backoffMs i) :: next.1, next.2)

/-- Model of `generateGameFromContent` of `src/services/gemini.ts`: the whole
retry pipeline, as its event trace and settled outcome. -/
def generateGameFromContent (env : Nat → CallResult)
    (parse : String → Option ParsedGame) (rng : List (Fin 36))
    (options : GenerateOptions) : List Event × Except String GameData :=
  runFrom env parse rng options 0 strategies

/-! ### Trace projections -/

/-- Progress-callback invocations of a trace, in order. -/
def progressMsgs : List Event → List String
  | [] => []
  | Event.progress m :: r => m :: progressMsgs r
  | _ :: r => progressMsgs r

/-- Attempt indices of the model calls of a trace, in order. -/
def callIdxs : List Event → List Nat
  | [] => []
  | Event.apiCall i _ :: r => i :: callIdxs r
  | _ :: r => callIdxs r

/-- Prompts of the model calls of a trace, in order. -/
def callPrompts : List Event → List String
  | [] => []
  | Event.apiCall _ p :: r => p :: callPrompts r
  | _ :: r => callPrompts r

/-- Backoff delays of a trace, in order. -/
def delayMss : List Event → List Nat
  | [] => []
  | Event.waitDelay d :: r => d :: delayMss r
  | _ :: r => delayMss r

/-- Index ramp: `idxSeq s n = [s, s+1, ..., s+n-1]`. -/
def idxSeq : Nat → Nat → List Nat
  | _, 0 => []
  | s, n + 1 => s :: idxSeq (s + 1) n

/-! ### Caller-side cancellation (`src/components/CreateGame.tsx`) -/

/-- The caller wrapper `handleGenerate` with its `isCancelled` ref:
every progress invocation and the final delivery re-check the flag.
`cancelAt = some k` means `cancelGeneration` flipped the flag after
exactly `k` of those checks (so progress updates `k` onward and, the
delivery check coming after all progress checks, the delivery are
suppressed); `none` means the run was never cancelled.  Returns the
caller-visible progress updates and the delivered game. -/
def handleGenerate (run : List Event × Except String GameData)
    (cancelAt : Option Nat) : List String × Option GameData :=
  let msgs := progressMsgs run.1
  match cancelAt with
  | none => (msgs, run.2.toOption)
  | some k => (msgs.take k, if k ≤ msgs.length then none else run.2.toOption)

/-! ### `withTimeout` (lines 58-74) as a settle-once event machine -/

/-- The two callbacks `withTimeout` installs: the `setTimeout` firing,
and the wrapped promise settling with result `r` (running the `then` /
`catch` continuation).  A run is a list of these in the order the event
loop delivers them. -/
inductive WTEvent (α : Type)
  | timerFires
  | promiseSettles (r : Except String α)

/-- State of one `withTimeout` promise: its settled result (`none`
while pending — a promise settles at most once) and whether the local
timer is still armed (`clearTimeout` not yet called). -/
structure WTState (α : Type) where
  result : Option (Except String α)
  timerActive : Bool

/-- The timeout rejection message (line 61). -/
def timeoutMsg (timeoutMs : Nat) (label : String) : String :=
  "Timeout after " ++ toString timeoutMs ++ "ms (" ++ label ++ ")"

/-- Promise settlement: the first settlement wins, later ones are
ignored. -/
def settleOnce {α : Type} (cur : Option (Except String α))
    (r : Except String α) : Option (Except String α) :=
  match cur with
  | some x => some x
  | none => some r

/-- One event of the `withTimeout` machine: the timer callback rejects
with the timeout error (only if not cleared); the promise continuation
first runs `clearTimeout`, then resolves/rejects with the outcome of
the wrapped promise. -/
def withTimeoutStep {α : Type} (timeoutMs : Nat) (label : String)
    (st : WTState α) : WTEvent α → WTState α
  | WTEvent.timerFires =>
    if st.timerActive then
      ⟨settleOnce st.result (.error (timeoutMsg timeoutMs label)), false⟩
    else st
  | WTEvent.promiseSettles r => ⟨settleOnce st.result r, false⟩

/-- A whole `withTimeout` run over an event-loop schedule: start
pending with the timer armed, process the events in order. -/
def runWithTimeout {α : Type} (timeoutMs : Nat) (label : String)
    (events : List (WTEvent α)) : WTState α :=
  events.foldl (withTimeoutStep timeoutMs label) ⟨none, true⟩

/-! ### Concrete fixtures used by witnesses and counterexamples -/

/-- Sample options. -/
def optsW : GenerateOptions := ⟨"content", "obj", "type", GameMode.legacy, none, none, none⟩

/-- A question with an out-of-range `correctIndex`, as a schema-violating
model could emit. -/
def badQuestion : Question := ⟨"1", "Q?", ["A", "B", "C", "D"], 7, "E", "C", none⟩

/-- A parsed payload with a single (invalid) question. -/
def badParsed : ParsedGame := ⟨"T", "D", "default", [badQuestion], none, none⟩

/-- Environment whose every model call resolves with text `"x"`. -/
def envOkX : Nat → CallResult := fun _ => CallResult.success (some "x")

/-- Environment whose every model call rejects. -/
def envFail : Nat → CallResult := fun _ => CallResult.failure "network down"

/-- Parse function that always yields `badParsed`. -/
def parseBad : String → Option ParsedGame := fun _ => some badParsed

/-- Parse function that always fails (malformed payload). -/
def parseNone : String → Option ParsedGame := fun _ => none

/-- A parsed payload that carries its own `code` and `isEngine` fields,
which the validator must discard. -/
def spoofParsed : ParsedGame := ⟨"T", "D", "default", [badQuestion], some "MODEL", some true⟩

/-- Parse function that always yields `spoofParsed`. -/
def parseSpoof : String → Option ParsedGame := fun _ => some spoofParsed

/-- The `GameData` the pipeline mints from `badParsed` with empty
randomness. -/
def gBad : GameData := ⟨"", false, "T", "D", [badQuestion], "default"⟩

/-! ### Helper lemmas -/

theorem length_contMarker : contMarker.length = 31 := by decide

theorem length_moreMarker : moreMarker.length = 26 := by decide

theorem string_length_data (s : String) : s.length = s.data.length := rfl

/-- Characterization of a successful `parseGameResponse`. -/
theorem parseGameResponse_ok_iff (parse : String → Option ParsedGame)
    (rng : List (Fin 36)) (text : String) (options : GenerateOptions)
    (g : GameData) :
    parseGameResponse parse rng text options = .ok g ↔
      ∃ pg, parse (cleanResponse text) = some pg ∧
        g = { code := mintCode rng
              isEngine := options.gameMode = GameMode.engine
              title := pg.title
              description := pg.description
              questions := pg.questions
              theme := pg.theme } := by
  unfold parseGameResponse
  cases h : parse (cleanResponse text) with
  | none => simp [h]
  | some pg => simp [h, eq_comm]

/-- A failing `parseGameResponse` fails with `invalidFormatMsg`. -/
theorem parseGameResponse_error (parse : String → Option ParsedGame)
    (rng : List (Fin 36)) (text : String) (options : GenerateOptions)
    (h : parse (cleanResponse text) = none) :
    parseGameResponse parse rng text options = .error invalidFormatMsg := by
  unfold parseGameResponse
  simp [h]

/-- A question satisfying the correct-index invariant. -/
def goodQuestion : Question := ⟨"1", "Q?", ["A", "B", "C", "D"], 2, "E", "C", none⟩

/-- A well-formed parsed payload with five valid questions. -/
def goodParsed : ParsedGame :=
  ⟨"T", "D", "default",
   [goodQuestion, goodQuestion, goodQuestion, goodQuestion, goodQuestion], none, none⟩

/-- Parse function that always yields `goodParsed`. -/
def parseGood : String → Option ParsedGame := fun _ => some goodParsed

/-- The `GameData` the pipeline mints from `goodParsed` with empty
randomness. -/
def gGood : GameData :=
  ⟨"", false, "T", "D",
   [goodQuestion, goodQuestion, goodQuestion, goodQuestion, goodQuestion], "default"⟩

theorem base36_upper_shape (d : Fin 36) :
    ('0' ≤ (base36Char d).toUpper ∧ (base36Char d).toUpper ≤ '9') ∨
    ('A' ≤ (base36Char d).toUpper ∧ (base36Char d).toUpper ≤ 'Z') := by
  revert d
  decide

theorem progressMsgs_append (a b : List Event) :
    progressMsgs (a ++ b) = progressMsgs a ++ progressMsgs b := by
  induction a with
  | nil => rfl
  | cons e r ih => cases e <;> simp [progressMsgs, ih]

theorem callIdxs_append (a b : List Event) :
    callIdxs (a ++ b) = callIdxs a ++ callIdxs b := by
  induction a with
  | nil => rfl
  | cons e r ih => cases e <;> simp [callIdxs, ih]

theorem delayMss_append (a b : List Event) :
    delayMss (a ++ b) = delayMss a ++ delayMss b := by
  induction a with
  | nil => rfl
  | cons e r ih => cases e <;> simp [delayMss, ih]

/-- One attempt emits no events besides (possibly) the finalizing
progress notification. -/
theorem runAttempt_trace (parse : String → Option ParsedGame) (rng : List (Fin 36))
    (options : GenerateOptions) (call : CallResult) :
    (runAttempt parse rng options call).1 = [] ∨
    (runAttempt parse rng options call).1 = [Event.progress "Finalizing game..."] := by
  rcases call with m | t
  · exact Or.inl rfl
  · rcases t with _ | txt
    · exact Or.inl rfl
    · by_cases h : txt = ""
      · left; simp [runAttempt, h]
      · rcases hp : parseGameResponse parse rng txt options with e | g
        · right; simp [runAttempt, h, hp]
        · right; simp [runAttempt, h, hp]

theorem runAttempt_callIdxs (parse : String → Option ParsedGame) (rng : List (Fin 36))
    (options : GenerateOptions) (call : CallResult) :
    callIdxs (runAttempt parse rng options call).1 = [] := by
  rcases runAttempt_trace parse rng options call with h | h <;> rw [h] <;> rfl

theorem runAttempt_delayMss (parse : String → Option ParsedGame) (rng : List (Fin 36))
    (options : GenerateOptions) (call : CallResult) :
    delayMss (runAttempt parse rng options call).1 = [] := by
  rcases runAttempt_trace parse rng options call with h | h <;> rw [h] <;> rfl

/-- Shape of a retry run: the attempts made are a contiguous,
in-order segment of strategy indices; exactly one backoff of
`backoffMs j` follows each failed non-final attempt `j`; and an error
outcome is always `exhaustedMsg`, raised only after every remaining
strategy was tried. -/
theorem runFrom_shape (env : Nat → CallResult) (parse : String → Option ParsedGame)
    (rng : List (Fin 36)) (options : GenerateOptions) :
    ∀ (ss : List Strategy) (i : Nat), ss ≠ [] →
    ∃ n, 1 ≤ n ∧ n ≤ ss.length ∧
      callIdxs (runFrom env parse rng options i ss).1 = idxSeq i n ∧
      delayMss (runFrom env parse rng options i ss).1 = (idxSeq i (n - 1)).map backoffMs ∧
      (∀ e, (runFrom env parse rng options i ss).2 = .error e →
        e = exhaustedMsg ∧ n = ss.length) := by
  intro ss
  induction ss with
  | nil => intro i h; exact absurd rfl h
  | cons s rest ih =>
    intro i _
    rcases rest with _ | ⟨s', rest'⟩
    · rcases hA : (runAttempt parse rng options (env i)).2 with g | m
      · refine ⟨1, le_refl 1, by simp, ?_, ?_, ?_⟩
        · simp [runFrom, hA, callIdxs, runAttempt_callIdxs, idxSeq]
        · simp [runFrom, hA, delayMss, runAttempt_delayMss, idxSeq]
        · intro e he
          have hres : (runFrom env parse rng options i [s]).2 = Except.ok g := by
            simp [runFrom, hA]
          rw [hres] at he
          exact Except.noConfusion he
      · refine ⟨1, le_refl 1, by simp, ?_, ?_, ?_⟩
        · simp [runFrom, hA, callIdxs, runAttempt_callIdxs, idxSeq]
        · simp [runFrom, hA, delayMss, runAttempt_delayMss, idxSeq]
        · intro e he
          have hres : (runFrom env parse rng options i [s]).2 = Except.error exhaustedMsg := by
            simp [runFrom, hA]
          rw [hres] at he
          injection he with h
          exact ⟨h.symm, rfl⟩
    · rcases hA : (runAttempt parse rng options (env i)).2 with g | m
      · refine ⟨1, le_refl 1, by simp, ?_, ?_, ?_⟩
        · simp [runFrom, hA, callIdxs, runAttempt_callIdxs, idxSeq]
        · simp [runFrom, hA, delayMss, runAttempt_delayMss, idxSeq]
        · intro e he
          have hres : (runFrom env parse rng options i (s :: s' :: rest')).2 = Except.ok g := by
            simp [runFrom, hA]
          rw [hres] at he
          exact Except.noConfusion he
      · obtain ⟨n', hn1, hn2, hc, hd, he⟩ := ih (i + 1) (by simp)
        obtain ⟨k, rfl⟩ : ∃ k, n' = k + 1 := ⟨n' - 1, by omega⟩
        refine ⟨k + 2, by omega, by simp at hn2 ⊢; omega, ?_, ?_, ?_⟩
        · simp [runFrom, hA, callIdxs, callIdxs_append, runAttempt_callIdxs, idxSeq]
          simpa [idxSeq] using hc
        · simp [runFrom, hA, delayMss, delayMss_append, runAttempt_delayMss, idxSeq]
          simpa [idxSeq] using hd
        · intro e hee
          have hres : (runFrom env parse rng options i (s :: s' :: rest')).2 =
              (runFrom env parse rng options (i + 1) (s' :: rest')).2 := by
            simp [runFrom, hA]
          rw [hres] at hee
          obtain ⟨he1, he2⟩ := he e hee
          refine ⟨he1, ?_⟩
          simp at he2 ⊢
          omega

theorem runAttempt_ok (parse : String → Option ParsedGame) (rng : List (Fin 36))
    (options : GenerateOptions) (call : CallResult) (g : GameData)
    (h : (runAttempt parse rng options call).2 = AttemptOut.ok g) :
    ∃ txt pg, call = CallResult.success (some txt) ∧ txt ≠ "" ∧
      parse (cleanResponse txt) = some pg ∧
      g = { code := mintCode rng
            isEngine := options.gameMode = GameMode.engine
            title := pg.title
            description := pg.description
            questions := pg.questions
            theme := pg.theme } := by
  rcases call with m | t
  · simp [runAttempt] at h
  · rcases t with _ | txt
    · simp [runAttempt] at h
    · by_cases hne : txt = ""
      · simp [runAttempt, hne] at h
      · rcases hp : parseGameResponse parse rng txt options with e | g'
        · simp [runAttempt, hne, hp] at h
        · have hg : g' = g := by simpa [runAttempt, hne, hp] using h
          subst hg
          obtain ⟨pg, hpg, hgg⟩ := (parseGameResponse_ok_iff parse rng txt options g').mp hp
          exact ⟨txt, pg, rfl, hne, hpg, hgg⟩

theorem runFrom_ok (env : Nat → CallResult) (parse : String → Option ParsedGame)
    (rng : List (Fin 36)) (options : GenerateOptions) :
    ∀ (ss : List Strategy) (i : Nat) (g : GameData),
    (runFrom env parse rng options i ss).2 = .ok g →
    ∃ j txt pg, env j = CallResult.success (some txt) ∧ txt ≠ "" ∧
      parse (cleanResponse txt) = some pg ∧
      g = { code := mintCode rng
            isEngine := options.gameMode = GameMode.engine
            title := pg.title
            description := pg.description
            questions := pg.questions
            theme := pg.theme } := by
  intro ss
  induction ss with
  | nil =>
    intro i g h
    simp [runFrom] at h
  | cons s rest ih =>
    intro i g h
    rcases rest with _ | ⟨s', rest'⟩
    · rcases hA : (runAttempt parse rng options (env i)).2 with g' | m
      · have hres : (runFrom env parse rng options i [s]).2 = Except.ok g' := by
          simp [runFrom, hA]
        rw [hres] at h
        injection h with h'
        subst h'
        obtain ⟨txt, pg, hc, hne, hp, hgg⟩ := runAttempt_ok parse rng options (env i) g' hA
        exact ⟨i, txt, pg, hc, hne, hp, hgg⟩
      · have hres : (runFrom env parse rng options i [s]).2 = Except.error exhaustedMsg := by
          simp [runFrom, hA]
        rw [hres] at h
        exact Except.noConfusion h
    · rcases hA : (runAttempt parse rng options (env i)).2 with g' | m
      · have hres : (runFrom env parse rng options i (s :: s' :: rest')).2 = Except.ok g' := by
          simp [runFrom, hA]
        rw [hres] at h
        injection h with h'
        subst h'
        obtain ⟨txt, pg, hc, hne, hp, hgg⟩ := runAttempt_ok parse rng options (env i) g' hA
        exact ⟨i, txt, pg, hc, hne, hp, hgg⟩
      · have hres : (runFrom env parse rng options i (s :: s' :: rest')).2 =
            (runFrom env parse rng options (i + 1) (s' :: rest')).2 := by
          simp [runFrom, hA]
        rw [hres] at h
        exact ih (i + 1) g h

theorem runFrom_fail_next (env : Nat → CallResult) (parse : String → Option ParsedGame)
    (rng : List (Fin 36)) (options : GenerateOptions) (i : Nat) (s s' : Strategy)
    (rest' : List Strategy) (m : String)
    (hA : (runAttempt parse rng options (env i)).2 = AttemptOut.fail m) :
    (runFrom env parse rng options i (s :: s' :: rest')).2 =
      (runFrom env parse rng options (i + 1) (s' :: rest')).2 ∧
    (runFrom env parse rng options i (s :: s' :: rest')).1 =
      Event.progress (progressMsgFor i s) ::
      Event.apiCall i (buildPrompt options (preprocessContent options.content s.charLimit)) ::
      ((runAttempt parse rng options (env i)).1 ++
        Event.waitDelay (backoffMs i) ::
          (runFrom env parse rng options (i + 1) (s' :: rest')).1) := by
  constructor
  · simp [runFrom, hA]
  · simp [runFrom, hA]

theorem runFrom_first_call (env : Nat → CallResult) (parse : String → Option ParsedGame)
    (rng : List (Fin 36)) (options : GenerateOptions) (ss : List Strategy) (i : Nat)
    (h : ss ≠ []) :
    ∃ l, callIdxs (runFrom env parse rng options i ss).1 = i :: l := by
  obtain ⟨n, hn1, -, hc, -, -⟩ := runFrom_shape env parse rng options ss i h
  obtain ⟨k, rfl⟩ : ∃ k, n = k + 1 := ⟨n - 1, by omega⟩
  exact ⟨idxSeq (i + 1) k, by simpa [idxSeq] using hc⟩

/-! ### Claim theorems -/

/-- C1: for every input, `generateGameFromContent` tries the fixed
strategy list strictly in order (the attempt indices of its trace are
an initial ramp `0, 1, ..., n-1`); each failed non-final attempt `j`
is followed by exactly one backoff `backoffMs j`, and `backoffMs` is
strictly increasing in the attempt index; the settled outcome is
either a game or the single consolidated `exhaustedMsg` — which is a
constant, so no per-attempt error is ever surfaced and no attempt
details are enumerated — and the error arises only after all
strategies were tried. -/
theorem retry_orchestrator_ladder (env : Nat → CallResult)
    (parse : String → Option ParsedGame) (rng : List (Fin 36))
    (options : GenerateOptions) :
    ∃ n, 1 ≤ n ∧ n ≤ strategies.length ∧
      callIdxs (generateGameFromContent env parse rng options).1 = idxSeq 0 n ∧
      delayMss (generateGameFromContent env parse rng options).1 =
        (idxSeq 0 (n - 1)).map backoffMs ∧
      StrictMono backoffMs ∧
      (∀ e, (generateGameFromContent env parse rng options).2 = Except.error e →
        e = exhaustedMsg ∧ n = strategies.length) := by
  obtain ⟨n, h1, h2, hc, hd, he⟩ :=
    runFrom_shape env parse rng options strategies 0 (by simp [strategies])
  have hmono : StrictMono backoffMs := by
    intro a b hab
    simp only [backoffMs]
    omega
  exact ⟨n, h1, h2, hc, hd, hmono, he⟩

/-- Witness for C1 at an environment whose every call fails: three
calls in order, backoffs 1500 and 3000, and the consolidated error. -/
theorem retry_orchestrator_ladder_witness :
    ∃ n, 1 ≤ n ∧ n ≤ strategies.length ∧
      callIdxs (generateGameFromContent envFail parseNone [] optsW).1 = idxSeq 0 n ∧
      delayMss (generateGameFromContent envFail parseNone [] optsW).1 =
        (idxSeq 0 (n - 1)).map backoffMs ∧
      StrictMono backoffMs ∧
      (∀ e, (generateGameFromContent envFail parseNone [] optsW).2 = Except.error e →
        e = exhaustedMsg ∧ n = strategies.length) :=
  retry_orchestrator_ladder envFail parseNone [] optsW

/-- C2 counterexample: at budget 2 (chunk size 0) the trailing JS
`slice(-0)` degenerates to the whole content, so the output of
`preprocessContent` on the 5-character string is the two markers
followed by the entire content — its trailing segment has 5
characters, not `2 / 3 = 0`, and the output length exceeds the budget
plus the 57 marker characters. -/
theorem preprocess_small_budget_cex :
    preprocessContent "ABCDE" 2 = ⟨contMarker ++ moreMarker ++ "ABCDE".data⟩ ∧
    ¬ ((preprocessContent "ABCDE" 2).length ≤ 2 + 57) :=
  ⟨rfl, by decide⟩

/-- C2 (amended: budgets of at least 3, so the chunk size is
positive): `preprocessContent` returns content at most the budget
unchanged; longer content becomes a leading segment, a segment
centred on the midpoint, and a trailing segment, each of exactly
`budget / 3` characters, joined by the two fixed markers, so the
output length is `3 * (budget / 3) + 57 ≤ budget + 57`. -/
theorem preprocessContent_budget_spec (s : String) (b : Nat) :
    (s.length ≤ b → preprocessContent s b = s) ∧
    (3 ≤ b → b < s.length →
      preprocessContent s b =
        ⟨s.data.take (b / 3) ++ contMarker ++
         (s.data.drop (s.length / 2 - b / 3 / 2)).take (b / 3) ++ moreMarker ++
         s.data.drop (s.length - b / 3)⟩ ∧
      (s.data.take (b / 3)).length = b / 3 ∧
      ((s.data.drop (s.length / 2 - b / 3 / 2)).take (b / 3)).length = b / 3 ∧
      (s.data.drop (s.length - b / 3)).length = b / 3 ∧
      (preprocessContent s b).length = 3 * (b / 3) + 57 ∧
      (preprocessContent s b).length ≤ b + 57) := by
  have hds : s.data.length = s.length := rfl
  constructor
  · intro h
    simp [preprocessContent, preprocessList, h]
  · intro h3 hb
    have hc0 : b / 3 ≠ 0 := by omega
    have hout : preprocessContent s b =
        ⟨s.data.take (b / 3) ++ contMarker ++
         (s.data.drop (s.length / 2 - b / 3 / 2)).take (b / 3) ++ moreMarker ++
         s.data.drop (s.length - b / 3)⟩ := by
      simp [preprocessContent, preprocessList, jsSliceNeg, hc0, Nat.not_le.mpr hb]
    have h1 : (s.data.take (b / 3)).length = b / 3 := by
      rw [List.length_take]; omega
    have h2 : ((s.data.drop (s.length / 2 - b / 3 / 2)).take (b / 3)).length = b / 3 := by
      rw [List.length_take, List.length_drop]; omega
    have h4 : (s.data.drop (s.length - b / 3)).length = b / 3 := by
      rw [List.length_drop]; omega
    have hlen : (preprocessContent s b).length = 3 * (b / 3) + 57 := by
      rw [hout]
      show (s.data.take (b / 3) ++ contMarker ++
         (s.data.drop (s.length / 2 - b / 3 / 2)).take (b / 3) ++ moreMarker ++
         s.data.drop (s.length - b / 3)).length = 3 * (b / 3) + 57
      simp only [List.length_append, h1, h2, h4, length_contMarker, length_moreMarker]
      omega
    exact ⟨hout, h1, h2, h4, hlen, by omega⟩

/-- Witness for C2 on a 10-character content with budget 6. -/
theorem preprocessContent_budget_spec_witness :
    3 ≤ 6 ∧ 6 < ("ABCDEFGHIJ" : String).length ∧
    (preprocessContent "ABCDEFGHIJ" 6).length = 3 * (6 / 3) + 57 :=
  ⟨by decide, by decide,
    ((preprocessContent_budget_spec "ABCDEFGHIJ" 6).2 (by decide) (by decide)).2.2.2.2.1⟩

/-- C3: whenever the cleaned response text parses, `parseGameResponse`
returns exactly the parsed title, description, questions and theme,
while `code` is the locally minted value and `isEngine` is derived
from the requested game mode — any `code` or `isEngine` field carried
by the parsed payload (its `codeJson` / `isEngineJson` components) is
absent from the result. -/
theorem parseGameResponse_enriches (parse : String → Option ParsedGame)
    (rng : List (Fin 36)) (text : String) (options : GenerateOptions)
    (pg : ParsedGame) (h : parse (cleanResponse text) = some pg) :
    parseGameResponse parse rng text options =
      .ok { code := mintCode rng
            isEngine := options.gameMode = GameMode.engine
            title := pg.title
            description := pg.description
            questions := pg.questions
            theme := pg.theme } := by
  unfold parseGameResponse
  simp [h]

/-- Witness for C3: a payload that spoofs `code := "MODEL"` and
`isEngine := true` still yields the locally minted code `"0AZ"` and
the mode-derived `isEngine := false`, with its title preserved. -/
theorem parseGameResponse_enriches_witness :
    parseSpoof (cleanResponse "resp") = some spoofParsed ∧
    parseGameResponse parseSpoof [⟨0, by omega⟩, ⟨10, by omega⟩, ⟨35, by omega⟩] "resp" optsW =
      .ok { code := "0AZ"
            isEngine := false
            title := "T"
            description := "D"
            questions := [badQuestion]
            theme := "default" } ∧
    "0AZ" ≠ "MODEL" ∧ spoofParsed.codeJson = some "MODEL" :=
  ⟨rfl,
   by
    have h := parseGameResponse_enriches parseSpoof
      [⟨0, by omega⟩, ⟨10, by omega⟩, ⟨35, by omega⟩] "resp" optsW spoofParsed rfl
    simpa using h,
   by decide, rfl⟩

/-- C4: the `withTimeout` race settles exactly once.  If the wrapped
promise settles first (in either direction), the wrapper settles the
same way and the timer is cleared on both paths; if the timer fires
first, the wrapper rejects with the timeout error and the late promise
settlement is ignored; settlement is permanent (a stale callback can
never re-settle), and a cleared timer firing is a no-op — so the value
outcome and the timeout outcome are mutually exclusive. -/
theorem withTimeout_settle_once (α : Type) (timeoutMs : Nat) (label : String) :
    (∀ r : Except String α,
      runWithTimeout timeoutMs label [WTEvent.promiseSettles r] =
        ⟨some r, false⟩) ∧
    (∀ r : Except String α,
      runWithTimeout timeoutMs label [WTEvent.timerFires, WTEvent.promiseSettles r] =
        ⟨some (.error (timeoutMsg timeoutMs label)), false⟩) ∧
    (runWithTimeout timeoutMs label ([WTEvent.timerFires] : List (WTEvent α)) =
      ⟨some (.error (timeoutMsg timeoutMs label)), false⟩) ∧
    (∀ (st : WTState α) (e : WTEvent α) (x : Except String α),
      st.result = some x → (withTimeoutStep timeoutMs label st e).result = some x) ∧
    (∀ st : WTState α, st.timerActive = false →
      withTimeoutStep timeoutMs label st WTEvent.timerFires = st) := by
  refine ⟨?_, ?_, ?_, ?_, ?_⟩
  · intro r
    rfl
  · intro r
    rfl
  · rfl
  · intro st e x hx
    cases e with
    | timerFires =>
      by_cases ht : st.timerActive
      · simp [withTimeoutStep, ht, settleOnce, hx]
      · simp [withTimeoutStep, ht, hx]
    | promiseSettles r =>
      simp [withTimeoutStep, settleOnce, hx]
  · intro st ht
    cases hst : st with
    | mk r a =>
      simp [withTimeoutStep]
      rw [hst] at ht
      simp at ht
      simp [ht]

/-- Witness for C4 with the first strategy parameters: promise-first
keeps the value and clears the timer; timer-first yields the timeout
error; a stale timer event cannot re-settle a settled state. -/
theorem withTimeout_settle_once_witness :
    runWithTimeout 90000 "Full Analysis" [WTEvent.promiseSettles (Except.ok (7 : Nat))] =
      ⟨some (.ok 7), false⟩ ∧
    runWithTimeout 90000 "Full Analysis"
        [WTEvent.timerFires, WTEvent.promiseSettles (Except.ok (7 : Nat))] =
      ⟨some (.error (timeoutMsg 90000 "Full Analysis")), false⟩ ∧
    (withTimeoutStep 90000 "Full Analysis"
        (⟨some (.ok 7), false⟩ : WTState Nat) WTEvent.timerFires).result = some (.ok 7) :=
  ⟨(withTimeout_settle_once Nat 90000 "Full Analysis").1 _,
   (withTimeout_settle_once Nat 90000 "Full Analysis").2.1 _,
   (withTimeout_settle_once Nat 90000 "Full Analysis").2.2.2.1 _ WTEvent.timerFires _ rfl⟩

/-- C5: if the caller cancels after `k ≥ 1` progress notifications
(and before the run is over), the caller-visible progress updates are
exactly the first `k` messages and no `GameData` is delivered —
whatever the outcome of the run, including success; without
cancellation the same completed run delivers all messages and its
settled result, i.e. cancellation suppresses only the caller-visible
continuation, not the in-flight run. -/
theorem cancellation_suppresses_continuation (env : Nat → CallResult)
    (parse : String → Option ParsedGame) (rng : List (Fin 36))
    (options : GenerateOptions) (k : Nat) (h1 : 1 ≤ k)
    (h2 : k ≤ (progressMsgs (generateGameFromContent env parse rng options).1).length) :
    handleGenerate (generateGameFromContent env parse rng options) (some k) =
      ((progressMsgs (generateGameFromContent env parse rng options).1).take k, none) ∧
    handleGenerate (generateGameFromContent env parse rng options) none =
      (progressMsgs (generateGameFromContent env parse rng options).1,
        (generateGameFromContent env parse rng options).2.toOption) := by
  constructor
  · simp [handleGenerate, h2]
  · rfl

/-- Witness for C5 on a run that succeeds after two notifications:
cancelled after the first, only that message is visible and no game is
delivered even though the run resolved with `gBad`. -/
theorem cancellation_suppresses_continuation_witness :
    1 ≤ 1 ∧
    1 ≤ (progressMsgs (generateGameFromContent envOkX parseBad [] optsW).1).length ∧
    handleGenerate (generateGameFromContent envOkX parseBad [] optsW) (some 1) =
      ((progressMsgs (generateGameFromContent envOkX parseBad [] optsW).1).take 1, none) ∧
    (generateGameFromContent envOkX parseBad [] optsW).2 = .ok gBad :=
  ⟨le_refl 1, by decide,
   (cancellation_suppresses_continuation envOkX parseBad [] optsW 1 (le_refl 1) (by decide)).1,
   rfl⟩

/-- C6: `parseGameResponse` returns a `GameData` exactly when the
cleaned input parses; every non-parsing input fails with the
descriptive `invalidFormatMsg`; and when an attempt fails that way
with strategies remaining, the orchestrator settles as the run over
the remaining strategies — the format error is caught, not
propagated. -/
theorem invalid_format_retry (parse : String → Option ParsedGame) (rng : List (Fin 36))
    (options : GenerateOptions) :
    (∀ text, (∃ g, parseGameResponse parse rng text options = .ok g) ↔
      (parse (cleanResponse text)).isSome) ∧
    (∀ text, parse (cleanResponse text) = none →
      parseGameResponse parse rng text options = .error invalidFormatMsg) ∧
    (∀ (env : Nat → CallResult) (i : Nat) (s s' : Strategy) (rest' : List Strategy)
      (txt : String), env i = CallResult.success (some txt) → txt ≠ "" →
      parse (cleanResponse txt) = none →
      (runFrom env parse rng options i (s :: s' :: rest')).2 =
        (runFrom env parse rng options (i + 1) (s' :: rest')).2) := by
  refine ⟨?_, ?_, ?_⟩
  · intro text
    constructor
    · rintro ⟨g, hg⟩
      obtain ⟨pg, hpg, -⟩ := (parseGameResponse_ok_iff parse rng text options g).mp hg
      simp [hpg]
    · intro hs
      obtain ⟨pg, hpg⟩ := Option.isSome_iff_exists.mp hs
      exact ⟨_, (parseGameResponse_ok_iff parse rng text options _).mpr ⟨pg, hpg, rfl⟩⟩
  · intro text h
    exact parseGameResponse_error parse rng text options h
  · intro env i s s' rest' txt henv hne hp
    have hfail : (runAttempt parse rng options (env i)).2 = AttemptOut.fail invalidFormatMsg := by
      simp [runAttempt, henv, hne, parseGameResponse_error parse rng txt options hp]
    exact (runFrom_fail_next env parse rng options i s s' rest' invalidFormatMsg hfail).1

/-- Witness for C6: a never-parsing payload produces exactly the
descriptive invalid-format error. -/
theorem invalid_format_retry_witness :
    parseNone (cleanResponse "bad") = none ∧
    parseGameResponse parseNone [] "bad" optsW = .error invalidFormatMsg :=
  ⟨rfl, (invalid_format_retry parseNone [] optsW).2.1 "bad" rfl⟩

/-- C7 counterexample: with a model payload carrying a single
question, the pipeline resolves with a `GameData` of 1 question — the
5-question contract is not enforced by any count check. -/
theorem five_questions_cex :
    ((generateGameFromContent envOkX parseBad [] optsW).2.toOption.map
      (fun g => g.questions.length)) = some 1 ∧ (1 : Nat) ≠ 5 :=
  ⟨rfl, by decide⟩

/-- C7 (amended): every prompt the pipeline builds demands EXACTLY 5
questions, but the questions of any resolved `GameData` are exactly
the questions of the parsed model payload, unchecked — so the count is
5 only when the model complies. -/
theorem five_questions_prompt_only :
    (∀ (options : GenerateOptions) (pc : String), ∃ a b : List Char,
      (buildPrompt options pc).data = a ++ fiveQuestionsReq.data ++ b) ∧
    (∀ (env : Nat → CallResult) (parse : String → Option ParsedGame)
      (rng : List (Fin 36)) (options : GenerateOptions) (g : GameData),
      (generateGameFromContent env parse rng options).2 = .ok g →
      ∃ j txt pg, env j = CallResult.success (some txt) ∧ txt ≠ "" ∧
        parse (cleanResponse txt) = some pg ∧ g.questions = pg.questions) := by
  constructor
  · intro options pc
    refine ⟨("\n        You are an expert game designer.\n        TASK: Create a " ++
      gameModeStr options.gameMode ++
      " game JSON for Learning Objective: \"" ++ options.objective ++ "\" (" ++
      options.objectiveType ++
      ").\n        \n        CONTENT TO BASE QUESTIONS ON:\n        " ++
      pc ++ "\n        \n        REQUIREMENTS:\n        ").data,
      ("\n        2. Output JSON only.\n        3. Theme: " ++ themeStr options ++
       ".\n        \n        OUTPUT SCHEMA:\n        " ++ promptSchema ++ "\n      ").data, ?_⟩
    simp only [buildPrompt, String.data_append, List.append_assoc]
  · intro env parse rng options g h
    obtain ⟨j, txt, pg, henv, hne, hp, hgg⟩ :=
      runFrom_ok env parse rng options strategies 0 g h
    exact ⟨j, txt, pg, henv, hne, hp, by rw [hgg]⟩

/-- Witness for C7 on the one-question payload: the resolved game
carries exactly the parsed questions. -/
theorem five_questions_prompt_only_witness :
    (generateGameFromContent envOkX parseBad [] optsW).2 = .ok gBad ∧
    (∃ j txt pg, envOkX j = CallResult.success (some txt) ∧ txt ≠ "" ∧
      parseBad (cleanResponse txt) = some pg ∧ gBad.questions = pg.questions) :=
  ⟨rfl, five_questions_prompt_only.2 envOkX parseBad [] optsW gBad rfl⟩

/-- C8 counterexample: a payload whose question has `correctIndex = 7`
against 4 options flows through the pipeline unchanged, so the
resolved `GameData` violates `0 ≤ correctIndex < options.length`. -/
theorem correctIndex_unchecked_cex :
    (generateGameFromContent envOkX parseBad [] optsW).2 = .ok gBad ∧
    ¬ (∀ q ∈ gBad.questions,
        0 ≤ q.correctIndex ∧ q.correctIndex < (q.options.length : Int)) :=
  ⟨rfl, by decide⟩

/-- C8 (amended): the validator copies the parsed questions without a
bounds check, so the returned `GameData` satisfies the correct-index
invariant exactly when the parsed model payload does. -/
theorem correctIndex_pass_through (parse : String → Option ParsedGame)
    (rng : List (Fin 36)) (text : String) (options : GenerateOptions)
    (pg : ParsedGame) (g : GameData)
    (hp : parse (cleanResponse text) = some pg)
    (hg : parseGameResponse parse rng text options = .ok g) :
    g.questions = pg.questions ∧
    ((∀ q ∈ pg.questions, 0 ≤ q.correctIndex ∧ q.correctIndex < (q.options.length : Int)) →
      ∀ q ∈ g.questions, 0 ≤ q.correctIndex ∧ q.correctIndex < (q.options.length : Int)) := by
  obtain ⟨pg', hp', hgg⟩ := (parseGameResponse_ok_iff parse rng text options g).mp hg
  rw [hp] at hp'
  injection hp' with hpp
  subst hpp
  have hq : g.questions = pg.questions := by rw [hgg]
  refine ⟨hq, ?_⟩
  intro hinv q hqmem
  rw [hq] at hqmem
  exact hinv q hqmem

/-- Witness for C8 on a compliant payload: the questions pass through
unchanged. -/
theorem correctIndex_pass_through_witness :
    parseGood (cleanResponse "r") = some goodParsed ∧
    parseGameResponse parseGood [] "r" optsW = .ok gGood ∧
    gGood.questions = goodParsed.questions :=
  ⟨rfl, rfl, (correctIndex_pass_through parseGood [] "r" optsW goodParsed gGood rfl rfl).1⟩

/-- C9: the `code` of every `GameData` minted by `parseGameResponse`
is the locally minted value: at most 4 characters, each a decimal
digit or an uppercase Latin letter, and it depends only on the random
digits — two successful parses with the same randomness but different
response text and options mint the same code. -/
theorem minted_code_shape (parse : String → Option ParsedGame)
    (rng : List (Fin 36)) (text : String) (options : GenerateOptions)
    (g : GameData) (h : parseGameResponse parse rng text options = .ok g) :
    g.code = mintCode rng ∧
    g.code.length ≤ 4 ∧
    (∀ c ∈ g.code.data, ('0' ≤ c ∧ c ≤ '9') ∨ ('A' ≤ c ∧ c ≤ 'Z')) ∧
    (∀ (parse' : String → Option ParsedGame) (text' : String)
      (options' : GenerateOptions) (g' : GameData),
      parseGameResponse parse' rng text' options' = .ok g' → g'.code = g.code) := by
  obtain ⟨pg, -, hg⟩ := (parseGameResponse_ok_iff parse rng text options g).mp h
  have hcode : g.code = mintCode rng := by rw [hg]
  refine ⟨hcode, ?_, ?_, ?_⟩
  · rw [hcode]
    show ((rng.take 4).map (fun d => (base36Char d).toUpper)).length ≤ 4
    rw [List.length_map, List.length_take]
    omega
  · intro c hc
    rw [hcode] at hc
    have hc' : c ∈ (rng.take 4).map (fun d => (base36Char d).toUpper) := hc
    obtain ⟨d, -, rfl⟩ := List.mem_map.mp hc'
    exact base36_upper_shape d
  · intro parse' text' options' g' h'
    obtain ⟨pg', -, hg'⟩ := (parseGameResponse_ok_iff parse' rng text' options' g').mp h'
    rw [hg', hcode]

/-- Witness for C9 with digits 0, 10, 35: the minted code is `"0AZ"`
(3 characters, digits and uppercase letters only). -/
theorem minted_code_shape_witness :
    parseGameResponse parseSpoof [⟨0, by omega⟩, ⟨10, by omega⟩, ⟨35, by omega⟩] "resp" optsW =
      .ok { code := "0AZ", isEngine := false, title := "T", description := "D",
            questions := [badQuestion], theme := "default" } ∧
    ("0AZ" : String) = mintCode [⟨0, by omega⟩, ⟨10, by omega⟩, ⟨35, by omega⟩] ∧
    ("0AZ" : String).length ≤ 4 :=
  ⟨rfl,
   by
    have h := (minted_code_shape parseSpoof [⟨0, by omega⟩, ⟨10, by omega⟩, ⟨35, by omega⟩]
      "resp" optsW _ rfl).1
    exact h,
   by decide⟩

/-- C10: for EVERY attempt — any index `i` and any remaining strategy
list — whose model call resolves with a non-empty text, the retry loop
emits that attempt's stage notification and then a second progress
invocation "Finalizing game..." before the validation outcome can
influence the trace (the first two progress messages are exactly that
pair, whatever `parse` does); if validation of that text then fails
with strategies remaining, the loop settles as the run over the
remaining strategies and a call with the next index appears in the
trace, so the observer fires twice for that attempt even on a failed
validation.  `generateGameFromContent` is definitionally this loop
started at index 0 on the full strategy list, so this covers every
attempt of the real entry point. -/
theorem finalizing_progress_always (env : Nat → CallResult)
    (parse : String → Option ParsedGame) (rng : List (Fin 36))
    (options : GenerateOptions) (i : Nat) (s : Strategy) (rest : List Strategy)
    (txt : String)
    (h0 : env i = CallResult.success (some txt)) (hne : txt ≠ "") :
    (progressMsgs (runFrom env parse rng options i (s :: rest)).1).take 2 =
      [progressMsgFor i s, "Finalizing game..."] ∧
    (∀ s' rest', rest = s' :: rest' → parse (cleanResponse txt) = none →
      (runFrom env parse rng options i (s :: rest)).2 =
        (runFrom env parse rng options (i + 1) (s' :: rest')).2 ∧
      (i + 1) ∈ callIdxs (runFrom env parse rng options i (s :: rest)).1) ∧
    generateGameFromContent env parse rng options =
      runFrom env parse rng options 0 strategies := by
  have htr : (runAttempt parse rng options (env i)).1 =
      [Event.progress "Finalizing game..."] := by
    rcases hpr : parseGameResponse parse rng txt options with e | g <;>
      simp [runAttempt, h0, hne, hpr]
  refine ⟨?_, ?_, rfl⟩
  · have hex : ∃ tail, (runFrom env parse rng options i (s :: rest)).1 =
        Event.progress (progressMsgFor i s) ::
        Event.apiCall i (buildPrompt options (preprocessContent options.content s.charLimit)) ::
        Event.progress "Finalizing game..." :: tail := by
      rcases rest with _ | ⟨s', rest'⟩
      · rcases hA : (runAttempt parse rng options (env i)).2 with g | m
        · exact ⟨[], by simp [runFrom, hA, htr]⟩
        · exact ⟨[], by simp [runFrom, hA, htr]⟩
      · rcases hA : (runAttempt parse rng options (env i)).2 with g | m
        · exact ⟨[], by simp [runFrom, hA, htr]⟩
        · exact ⟨Event.waitDelay (backoffMs i) ::
              (runFrom env parse rng options (i + 1) (s' :: rest')).1,
            by simp [runFrom, hA, htr]⟩
    obtain ⟨tail, ht⟩ := hex
    rw [ht]
    simp [progressMsgs]
  · intro s' rest' hr hpnone
    subst hr
    have herr : parseGameResponse parse rng txt options = .error invalidFormatMsg :=
      parseGameResponse_error parse rng txt options hpnone
    have hA : (runAttempt parse rng options (env i)).2 =
        AttemptOut.fail invalidFormatMsg := by
      simp [runAttempt, h0, hne, herr]
    obtain ⟨hres, htrace⟩ :=
      runFrom_fail_next env parse rng options i s s' rest' invalidFormatMsg hA
    refine ⟨hres, ?_⟩
    obtain ⟨l, hl⟩ :=
      runFrom_first_call env parse rng options (s' :: rest') (i + 1) (by simp)
    rw [htrace]
    simp [callIdxs, callIdxs_append, runAttempt_callIdxs, hl]

/-- Witness for C10 at the SECOND attempt (index 1, remaining
strategies 2 and 3): the call resolves with `"x"`, parsing fails, yet
the two progress messages for that attempt fire and a third call
(index 2) occurs. -/
theorem finalizing_progress_always_witness :
    envOkX 1 = CallResult.success (some "x") ∧
    (progressMsgs (runFrom envOkX parseNone [] optsW 1
        (⟨"Condensed Summary", 6000, 75000, 5⟩ ::
          [⟨"Key Concepts", 3000, 60000, 6⟩])).1).take 2 =
      [progressMsgFor 1 ⟨"Condensed Summary", 6000, 75000, 5⟩, "Finalizing game..."] ∧
    2 ∈ callIdxs (runFrom envOkX parseNone [] optsW 1
        (⟨"Condensed Summary", 6000, 75000, 5⟩ ::
          [⟨"Key Concepts", 3000, 60000, 6⟩])).1 :=
  ⟨rfl,
   (finalizing_progress_always envOkX parseNone [] optsW 1
      ⟨"Condensed Summary", 6000, 75000, 5⟩ [⟨"Key Concepts", 3000, 60000, 6⟩]
      "x" rfl (by decide)).1,
   ((finalizing_progress_always envOkX parseNone [] optsW 1
      ⟨"Condensed Summary", 6000, 75000, 5⟩ [⟨"Key Concepts", 3000, 60000, 6⟩]
      "x" rfl (by decide)).2.1 ⟨"Key Concepts", 3000, 60000, 6⟩ [] rfl rfl).2⟩
